import Mathlib

/-!
Shallow embedding of `run_zxjukebox.py` (spjewkes/zxjukebox).

The program scans a root folder for `.tzx` tape images (and `.zip` archives),
then repeatedly picks one at random and plays it through the external tool
`tzxplay`.  The embedding models:

* the file system as a list of entries (path components relative to a root,
  plus a directory flag); `Path.glob("**/*")` enumerates every entry at any
  depth, directories included;
* observable effects (prints, subprocess runs, temporary-directory creation
  and removal, sleeps) as an event trace;
* Python exceptions as `Except String`: an uncaught exception aborts the
  program with a non-zero process exit;
* randomness and the external tool as oracles (an index pick, an exit-code
  function), so every run of the loop body is a deterministic function of
  those oracles.

Python string primitives (`str.lower`, `str.find`, `str.replace(_,_,1)`,
`pathlib.Path.suffix`, `pathlib.Path.name`) are embedded for ASCII strings.
-/

namespace ZXJukebox

/-- Equality of `Except` values is decidable componentwise (the instance is
spelled out because the library does not provide it here). -/
instance instDecEqExcept {ε α : Type} [DecidableEq ε] [DecidableEq α] :
    DecidableEq (Except ε α) := fun x y =>
  match x, y with
  | .ok a, .ok b =>
    if h : a = b then isTrue (by rw [h]) else isFalse (by simp [h])
  | .error a, .error b =>
    if h : a = b then isTrue (by rw [h]) else isFalse (by simp [h])
  | .ok _, .error _ => isFalse (by simp)
  | .error _, .ok _ => isFalse (by simp)

/-- Python `str.lower` on ASCII strings, written over the character list so
that it evaluates by kernel reduction. -/
def pyLower (s : String) : String :=
  String.mk (s.data.map Char.toLower)

/-- Python `pathlib.Path.suffix` of a final path component: the substring from the
last dot onwards, empty when there is no dot or the only dot is the leading
character (so `".tzx"` has suffix `""`, `"a.tzx"` has suffix `".tzx"`). -/
def pySuffix (name : String) : String :=
  let r := name.data.reverse
  let ext := r.takeWhile (fun c => c ≠ '.')
  match r.dropWhile (fun c => c ≠ '.') with
  | [] => ""
  | _ :: before => if before = [] then "" else String.mk ('.' :: ext.reverse)

/-- Python `pathlib.Path.name`: the part of a path string after the last slash. -/
def pyName (s : String) : String :=
  String.mk ((s.data.reverse.takeWhile (fun c => c ≠ '/')).reverse)

/-- Python `s.lower().find(pat) != -1`: does `s` (lowercased) contain `pat`
as a contiguous substring?  The empty pattern is contained in everything. -/
def containsSubstr (s pat : String) : Bool :=
  decide (pat.data <:+: s.data)

/-- One occurrence removal over character lists: Python
`s.replace(pat, "", 1)` deletes the leftmost occurrence of `pat`. -/
def removeFirst (pat : List Char) : List Char → List Char
  | [] => []
  | c :: cs =>
    if pat.isPrefixOf (c :: cs) then (c :: cs).drop pat.length
    else c :: removeFirst pat cs

/-- Python `s.replace(pat, "", 1)`. -/
def pyReplaceFirst (s pat : String) : String :=
  String.mk (removeFirst pat.data s.data)

/-- A file-system entry below some root: its path components relative to the
root (nonempty for anything `glob("**/*")` can yield) and whether it is a
directory.  `glob("**/*")` yields files and directories alike. -/
structure FSEntry where
  rel : List String
  isDir : Bool
deriving DecidableEq, Repr

/-- The final path component of an entry (what `Path.name` sees). -/
def FSEntry.lastComponent (e : FSEntry) : String :=
  e.rel.getLastD ""

/-- The full path string of an entry below `root`, as produced by joining the
root with the relative components (absolute whenever `root` is absolute; the
model has no symlinks, so `Path.resolve` is the identity on these paths). -/
def fullPath (root : String) (e : FSEntry) : String :=
  root ++ "/" ++ String.intercalate "/" e.rel

/-- Source function `get_tzx_from_path`: glob every entry under the root,
keep those whose suffix is `.tzx` (plus `.zip` when `include_zip`) and whose
lowercased path contains the lowercased match pattern, and return their
resolved paths. -/
def get_tzx_from_path (root : String) (fs : List FSEntry) (mtch : String)
    (include_zip : Bool) : List String :=
  let extensions : List String := if include_zip then [".tzx", ".zip"] else [".tzx"]
  let pattern := pyLower mtch
  (fs.filter (fun p =>
      extensions.contains (pySuffix p.lastComponent)
        && containsSubstr (pyLower (fullPath root p)) pattern)).map (fullPath root)

/-- The `Filetype` enum exactly as the source declares it: the first member
is spelled `UNKNONW`. -/
inductive Filetype where
  | UNKNONW
  | TZX
  | ZIP
deriving DecidableEq, Repr

/-- Source function `get_filetype`.  The fallback line reads
`return Filetype.UNKNOWN`, but the enum member is spelled `UNKNONW`, so the
attribute lookup on the enum class fails and the fallback raises
`AttributeError` instead of returning a value. -/
def get_filetype (filename : String) : Except String Filetype :=
  let extension := pySuffix (pyName filename)
  if extension = ".tzx" then .ok .TZX
  else if extension = ".zip" then .ok .ZIP
  else .error "AttributeError: type object Filetype has no attribute UNKNOWN"

example : pySuffix "game.tzx" = ".tzx" := by decide
example : pySuffix ".tzx" = "" := by decide
example : pySuffix "a.tar.gz" = ".gz" := by decide
example : pyName "/music/a.tzx" = "a.tzx" := by decide
example : get_filetype "/music/a.tzx" = .ok .TZX := by rfl
example : containsSubstr "/music/abc.tzx" "c.t" = true := by decide
example : containsSubstr "/music/abc.tzx" "" = true := by decide
example : pyReplaceFirst "/music/a.tzx" "/music" = "/a.tzx" := by decide

/-- The parsed command-line options (`args` in the source), one field per
`add_argument` call.  `gap` is an `Int`: Python `int` accepts negative
values and `argparse` imposes no lower bound. -/
structure Config where
  folder : String
  soft : Bool := false
  only48k : Bool := false
  all : Bool := false
  once : Bool := false
  noplay : Bool := false
  gap : Int := 5
  mtch : String := ""
  list : Bool := false
deriving DecidableEq, Repr

/-- The argument vector `play_tzx_file` hands to `subprocess.run`: the tool
name, `--verbose` always, `--sine` when `--soft`, `--48k` when `--only48k`,
`--stop` unless `--all`, then the file path. -/
def tzxplay_args (filename : String) (cfg : Config) : List String :=
  let t := ["tzxplay"]
  let t := t ++ ["--verbose"]
  let t := if cfg.soft then t ++ ["--sine"] else t
  let t := if cfg.only48k then t ++ ["--48k"] else t
  let t := if !cfg.all then t ++ ["--stop"] else t
  t ++ [filename]

/-- An observable effect of the program.  `rmTempDir` stands for the cleanup
a `tempfile.TemporaryDirectory` context manager performs on exit: the
directory tree is removed together with everything extracted into it. -/
inductive Event where
  | print (line : String)
  | run (argv : List String) (exitCode : Nat)
  | mkTempDir (dir : String)
  | rmTempDir (dir : String)
  | sleep (secs : Int)
deriving DecidableEq, Repr

/-- Model of `subprocess.run(argv, check=True)`: the subprocess always runs; a
non-zero exit status raises `CalledProcessError`. -/
def subprocess_run_check (argv : List String) (exitCode : Nat) :
    List Event × Except String Unit :=
  ([Event.run argv exitCode],
   if exitCode = 0 then .ok () else .error "CalledProcessError")

/-- Source function `play_tzx_file`: build the argument list, run the tool,
and swallow `CalledProcessError` (the only statement in the `try` block is
the `subprocess.run` call).  `exitf` is the oracle giving the external
tool's exit status for an invocation. -/
def play_tzx_file (filename : String) (cfg : Config)
    (exitf : List String → Nat) : List Event × Except String Unit :=
  let argv := tzxplay_args filename cfg
  let (evts, r) := subprocess_run_check argv (exitf argv)
  (evts, match r with
    | .error _ => .ok ()
    | .ok _ => .ok ())

/-- Source function `play_zip_file`.  `zipContents` models
`zipfile.ZipFile(filename).extractall(tempdir)`: either the entries the
archive extracts (laid out below `tempdir`) or the exception a corrupt
archive raises.  `pick` is the oracle behind `random.choice`.  The
`with tempfile.TemporaryDirectory()` block creates the directory first and
removes it on every exit path, re-raising any exception from the body. -/
def play_zip_file (filename : String) (cfg : Config) (tempdir : String)
    (zipContents : Except String (List FSEntry)) (pick : Nat)
    (exitf : List String → Nat) : List Event × Except String Unit :=
  let body : List Event × Except String Unit :=
    match zipContents with
    | .error e => ([], .error e)
    | .ok entries =>
      let tzx_files := get_tzx_from_path tempdir entries cfg.mtch false
      if tzx_files.isEmpty then
        ([Event.print ("No TZX files found in " ++ filename ++ "!")], .ok ())
      else
        let game := tzx_files.getD (pick % tzx_files.length) ""
        play_tzx_file game cfg exitf
  (Event.mkTempDir tempdir :: (body.1 ++ [Event.rmTempDir tempdir]), body.2)

/-- The oracles one iteration of the main loop consumes: the random index
into the catalog, the random index used inside an archive, the fresh
temporary-directory name, each archive's extraction outcome, and the
external tool's exit statuses. -/
structure World where
  pickCatalog : Nat
  pickZip : Nat
  tempdir : String
  zipContent : String → Except String (List FSEntry)
  exitf : List String → Nat

/-- Model of `random.choice(tzx_files)` in the main loop, driven by the oracle. -/
def selectedGame (catalog : List String) (w : World) : String :=
  catalog.getD (w.pickCatalog % catalog.length) ""

/-- The 80-dash separator `"-" * 80` printed after each iteration. -/
def sepLine : String :=
  String.mk (List.replicate 80 '-')

/-- One iteration of the `while True` loop in `main`: select, print the two
status lines, dispatch by file type unless `--noplay`, then print the
separator and sleep.  An exception anywhere in the body propagates: the
iteration never reaches the separator or the sleep and the program dies. -/
def loop_iteration (catalog : List String) (cfg : Config) (w : World) :
    List Event × Except String Unit :=
  let game := selectedGame catalog w
  let hd := [Event.print ("Loading file: " ++ game),
             Event.print ("==> " ++ pyName game)]
  let mid : List Event × Except String Unit :=
    if cfg.noplay then ([], .ok ())
    else
      match get_filetype game with
      | .error e => ([], .error e)
      | .ok .TZX => play_tzx_file game cfg w.exitf
      | .ok .ZIP => play_zip_file game cfg w.tempdir (w.zipContent game) w.pickZip w.exitf
      | .ok .UNKNONW => ([], .ok ())
  match mid.2 with
  | .error e => (hd ++ mid.1, .error e)
  | .ok _ => (hd ++ mid.1 ++ [Event.print sepLine, Event.sleep cfg.gap], .ok ())

/-- The startup checks and the scan in `main`: `os.path.exists` is the only
check on the folder (`ex` below); `Path.glob` on an existing non-directory
(`isDir = false`) yields nothing; an empty catalog raises `RuntimeError`.
An `Except.error` is an uncaught `RuntimeError`, a non-zero process exit. -/
def main_scan (ex isDir : Bool) (root : String) (fs : List FSEntry)
    (mtch : String) : Except String (List String) :=
  if !ex then .error ("Invalid folder: " ++ root)
  else
    let tzx_files := get_tzx_from_path root (if isDir then fs else []) mtch true
    if tzx_files.isEmpty then .error ("No TZX files found in: " ++ root)
    else .ok tzx_files

/-- What `main` does after a successful scan: with `--list`, print each
catalog entry with the folder prefix deleted (`str.replace(folder, "", 1)`)
behind a leading dot and return 0; otherwise enter the loop, modelled here
one iteration at a time. -/
def main_dispatch (cfg : Config) (root : String) (catalog : List String)
    (w : World) : List Event × Except String Unit :=
  if cfg.list then
    (catalog.map (fun p => Event.print ("." ++ pyReplaceFirst p root)), .ok ())
  else
    loop_iteration catalog cfg w

/-- Intermediate state of argument parsing: the positional slot is still
optional; every flag starts at its `argparse` default. -/
structure ParseState where
  folder : Option String := none
  soft : Bool := false
  only48k : Bool := false
  all : Bool := false
  once : Bool := false
  noplay : Bool := false
  gap : Int := 5
  mtch : String := ""
  list : Bool := false
deriving DecidableEq, Repr

/-- Python `int(s)` on a plain decimal literal: an optional sign followed by
at least one digit; anything else raises `ValueError` (here: `none`). -/
def parsePyInt (s : String) : Option Int :=
  let core : List Char → Option Int := fun ds =>
    if ds ≠ [] ∧ ds.all Char.isDigit then
      some (Int.ofNat (ds.foldl (fun a c => 10 * a + (c.toNat - 48)) 0))
    else none
  match s.data with
  | '-' :: ds => (core ds).map (fun n => -n)
  | '+' :: ds => core ds
  | ds => core ds

/-- Does a token look like a long option (`t.startswith("--")`)? -/
def isOptionLike (t : String) : Bool :=
  "--".data.isPrefixOf t.data

/-- The token-level behaviour of the `argparse` parser built in `main`,
restricted to the forms its surface admits: every option spelled in full,
option values as separate tokens.  A value that looks like a negative
number is consumed as the value of `--gap`, as `argparse` does when no
option string of the parser looks like a negative number.  An `.error` is a
`parser.error` call: usage text printed, process exit status 2. -/
def parseTokens : List String → ParseState → Except String ParseState
  | [], st => .ok st
  | t :: rest, st =>
    if t = "--soft" then parseTokens rest { st with soft := true }
    else if t = "--only48k" then parseTokens rest { st with only48k := true }
    else if t = "--all" then parseTokens rest { st with all := true }
    else if t = "--once" then parseTokens rest { st with once := true }
    else if t = "--noplay" then parseTokens rest { st with noplay := true }
    else if t = "--list" then parseTokens rest { st with list := true }
    else if t = "--gap" then
      match rest with
      | [] => .error "argument --gap: expected one argument"
      | v :: rest2 =>
        match parsePyInt v with
        | some n => parseTokens rest2 { st with gap := n }
        | none => .error ("argument --gap: invalid int value: " ++ v)
    else if t = "--match" then
      match rest with
      | [] => .error "argument --match: expected one argument"
      | v :: rest2 => parseTokens rest2 { st with mtch := v }
    else if isOptionLike t then .error ("unrecognized arguments: " ++ t)
    else
      match st.folder with
      | none => parseTokens rest { st with folder := some t }
      | some _ => .error ("unrecognized arguments: " ++ t)

/-- Model of `parser.parse_args()`: fold the tokens, then require the positional
`FOLDER` argument. -/
def parse_args (argv : List String) : Except String Config :=
  match parseTokens argv {} with
  | .error e => .error e
  | .ok st =>
    match st.folder with
    | none => .error "the following arguments are required: FOLDER"
    | some f =>
      .ok { folder := f, soft := st.soft, only48k := st.only48k,
            all := st.all, once := st.once, noplay := st.noplay,
            gap := st.gap, mtch := st.mtch, list := st.list }

example : parsePyInt "-3" = some (-3) := by rfl
example : parsePyInt "12" = some 12 := by rfl
example : parsePyInt "x2" = none := by rfl
example : parse_args ["/music", "--gap", "-3"]
    = .ok { folder := "/music", gap := -3 } := by rfl
example : parse_args ["/music", "--once", "--match", "jet"]
    = .ok { folder := "/music", once := true, mtch := "jet" } := by rfl

/-! ## Shared fixtures and helper lemmas -/

/-- A configuration for concrete runs: folder set, everything else at its
default (in particular `noplay = false`, `gap = 5`). -/
def cfg0 : Config := { folder := "/music" }

/-- A concrete oracle: deterministic picks, every archive extracts to
nothing, the tool always exits 0. -/
def w0 : World :=
  { pickCatalog := 0, pickZip := 0, tempdir := "/tmp/t0",
    zipContent := fun _ => .ok [], exitf := fun _ => 0 }

/-- A concrete oracle whose archives are all corrupt: extraction raises. -/
def wBadZip : World :=
  { pickCatalog := 0, pickZip := 0, tempdir := "/tmp/t0",
    zipContent := fun _ => .error "BadZipFile: File is not a zip file",
    exitf := fun _ => 0 }

/-- Membership in the scanner's result, characterised entry by entry. -/
theorem mem_get_tzx_iff (root : String) (fs : List FSEntry) (mtch : String)
    (inc : Bool) (p : String) :
    p ∈ get_tzx_from_path root fs mtch inc ↔
      ∃ e ∈ fs, p = fullPath root e
        ∧ (pySuffix e.lastComponent = ".tzx"
            ∨ (inc = true ∧ pySuffix e.lastComponent = ".zip"))
        ∧ (pyLower mtch).data <:+: (pyLower (fullPath root e)).data := by
  unfold get_tzx_from_path
  cases inc with
  | false =>
    constructor
    · intro hp
      rcases List.mem_map.mp hp with ⟨e, he, rfl⟩
      rcases List.mem_filter.mp he with ⟨hfs, hcond⟩
      rw [Bool.and_eq_true] at hcond
      rcases hcond with ⟨hext, hsub⟩
      refine ⟨e, hfs, rfl, ?_, of_decide_eq_true hsub⟩
      simp only [if_neg Bool.false_ne_true, List.contains, List.elem_iff,
        List.mem_singleton] at hext
      exact Or.inl hext
    · rintro ⟨e, he, rfl, hext, hsub⟩
      refine List.mem_map.mpr ⟨e, List.mem_filter.mpr ⟨he, ?_⟩, rfl⟩
      rw [Bool.and_eq_true]
      refine ⟨?_, decide_eq_true hsub⟩
      rcases hext with h | ⟨h, _⟩
      · simp [List.contains, List.elem_iff, h]
      · cases h
  | true =>
    constructor
    · intro hp
      rcases List.mem_map.mp hp with ⟨e, he, rfl⟩
      rcases List.mem_filter.mp he with ⟨hfs, hcond⟩
      rw [Bool.and_eq_true] at hcond
      rcases hcond with ⟨hext, hsub⟩
      refine ⟨e, hfs, rfl, ?_, of_decide_eq_true hsub⟩
      have hext2 : pySuffix e.lastComponent ∈ [".tzx", ".zip"] := by
        simpa [List.contains, List.elem_iff] using hext
      rcases List.mem_cons.mp hext2 with h | h
      · exact Or.inl h
      · exact Or.inr ⟨rfl, List.mem_singleton.mp h⟩
    · rintro ⟨e, he, rfl, hext, hsub⟩
      refine List.mem_map.mpr ⟨e, List.mem_filter.mpr ⟨he, ?_⟩, rfl⟩
      rw [Bool.and_eq_true]
      refine ⟨?_, decide_eq_true hsub⟩
      rcases hext with h | ⟨_, h⟩ <;> simp [List.contains, List.elem_iff, h]

/-- Deleting the leftmost occurrence of a pattern that sits at the front of
the list deletes exactly that front copy. -/
theorem removeFirst_append (pat rest : List Char) :
    removeFirst pat (pat ++ rest) = rest := by
  cases pat with
  | nil =>
    cases rest with
    | nil => rfl
    | cons c cs => simp [removeFirst, List.isPrefixOf]
  | cons p ps =>
    have hpre : ((p :: ps).isPrefixOf ((p :: ps) ++ rest)) = true :=
      List.isPrefixOf_iff_prefix.mpr (List.prefix_append _ _)
    have h1 : (p :: ps) ++ rest = p :: (ps ++ rest) := rfl
    rw [h1, removeFirst, ← h1, if_pos hpre, List.drop_left]

/-- The last element of a trace that closes with a fixed event. -/
theorem getLast?_cons_append_single {α : Type} (a b : α) (l : List α) :
    (a :: (l ++ [b])).getLast? = some b := by
  rw [show a :: (l ++ [b]) = (a :: l) ++ [b] from rfl, List.getLast?_concat]

/-- Python `str.replace(folder, "", 1)` on a path that starts with the folder
strips exactly the folder prefix. -/
theorem pyReplaceFirst_strips_front (root r : String) :
    pyReplaceFirst (root ++ "/" ++ r) root = "/" ++ r := by
  unfold pyReplaceFirst
  have hd : (root ++ "/" ++ r).data = root.data ++ ("/" ++ r).data := by
    simp [String.data_append, List.append_assoc]
  rw [hd, removeFirst_append]

/-! ## Claims -/

/-- C1: evaluating the code at an entry whose extension is neither `.tzx`
nor `.zip`, with the no-play flag unset: `get_filetype` raises
`AttributeError` (the fallback names the enum member `UNKNOWN`, but it is
declared as `UNKNONW`), the dispatch step propagates the exception, and the
iteration dies before printing the separator line or sleeping — it is not
silently skipped as the spec requires. -/
theorem C1_unrecognized_extension_raises :
    get_filetype "/music/song.mp3"
        = .error "AttributeError: type object Filetype has no attribute UNKNOWN"
      ∧ (loop_iteration ["/music/song.mp3"] cfg0 w0).2
        = .error "AttributeError: type object Filetype has no attribute UNKNOWN"
      ∧ Event.print sepLine ∉ (loop_iteration ["/music/song.mp3"] cfg0 w0).1
      ∧ Event.sleep cfg0.gap ∉ (loop_iteration ["/music/song.mp3"] cfg0 w0).1 :=
  ⟨rfl, rfl, by decide, by decide⟩

/-- C2 (counterexample): a corrupt archive is fatal, not skipped.  With a
catalog holding one zip whose extraction raises `BadZipFile`, the loop body
ends in the propagated exception and never reaches the sleep, so the loop
does not continue to the next iteration. -/
theorem C2_counterexample :
    (loop_iteration ["/music/bad.zip"] cfg0 wBadZip).2
        = .error "BadZipFile: File is not a zip file"
      ∧ Event.sleep cfg0.gap ∉ (loop_iteration ["/music/bad.zip"] cfg0 wBadZip).1 :=
  ⟨rfl, by decide⟩

/-- C2 (amended): of the two archive failure modes only the empty archive
is non-fatal.  When the selected entry is a zip: an extraction error
propagates out of the loop body (terminating the program), while an archive
containing no tape-images prints a diagnostic, plays nothing, and the
iteration completes normally through the separator and the sleep. -/
theorem C2_archive_error_handling (catalog : List String) (cfg : Config)
    (w : World) (hnp : cfg.noplay = false)
    (hz : get_filetype (selectedGame catalog w) = .ok .ZIP) :
    (∀ msg, w.zipContent (selectedGame catalog w) = .error msg →
        (loop_iteration catalog cfg w).2 = .error msg)
      ∧ (∀ entries, w.zipContent (selectedGame catalog w) = .ok entries →
          get_tzx_from_path w.tempdir entries cfg.mtch false = [] →
          (loop_iteration catalog cfg w).2 = .ok ()
            ∧ Event.print ("No TZX files found in " ++ selectedGame catalog w ++ "!")
                ∈ (loop_iteration catalog cfg w).1
            ∧ Event.sleep cfg.gap ∈ (loop_iteration catalog cfg w).1) := by
  constructor
  · intro msg hmsg
    simp [loop_iteration, hnp, hz, play_zip_file, hmsg]
  · intro entries hok hempty
    simp [loop_iteration, hnp, hz, play_zip_file, hok, hempty]

/-- C2 (witness for the amended theorem). -/
theorem C2_archive_error_handling_witness :
    (loop_iteration ["/music/bad.zip"] cfg0 wBadZip).2
        = .error "BadZipFile: File is not a zip file" :=
  (C2_archive_error_handling ["/music/bad.zip"] cfg0 wBadZip rfl rfl).1
    "BadZipFile: File is not a zip file" rfl

/-- C5: for every call to `play_zip_file`, whatever the archive contents,
the match filter, the random pick and the tool exit codes, the trace opens
by creating the temporary directory and closes by removing it (the
`TemporaryDirectory` context manager removes the tree, extracted contents
included, on every exit path — the empty-archive return and the
exception paths among them). -/
theorem C5_tempdir_always_removed (filename : String) (cfg : Config)
    (tempdir : String) (zc : Except String (List FSEntry)) (pick : Nat)
    (exitf : List String → Nat) :
    (play_zip_file filename cfg tempdir zc pick exitf).1.head?
        = some (Event.mkTempDir tempdir)
      ∧ (play_zip_file filename cfg tempdir zc pick exitf).1.getLast?
        = some (Event.rmTempDir tempdir) := by
  exact ⟨rfl, getLast?_cons_append_single _ _ _⟩

/-- C6: the `tzxplay` invocation: the tool name heads the vector, then
`--verbose` always; `--sine` is present exactly when `--soft` is
configured; `--48k` exactly when `--only48k`; `--stop` exactly when
`--all` is not given; the target file path is the final argument.  The
hypotheses keep the played path from colliding with a flag literal. -/
theorem C6_invocation_flags (filename : String) (cfg : Config)
    (h1 : filename ≠ "--verbose") (h2 : filename ≠ "--sine")
    (h3 : filename ≠ "--48k") (h4 : filename ≠ "--stop") :
    (tzxplay_args filename cfg).head? = some "tzxplay"
      ∧ "--verbose" ∈ tzxplay_args filename cfg
      ∧ ("--sine" ∈ tzxplay_args filename cfg ↔ cfg.soft = true)
      ∧ ("--48k" ∈ tzxplay_args filename cfg ↔ cfg.only48k = true)
      ∧ ("--stop" ∈ tzxplay_args filename cfg ↔ cfg.all = false)
      ∧ (tzxplay_args filename cfg).getLast? = some filename := by
  refine ⟨?_, ?_, ?_, ?_, ?_, List.getLast?_concat _⟩ <;>
  · obtain ⟨fo, soft, o48, al, onc, np, gap, mt, ls⟩ := cfg
    cases soft <;> cases o48 <;> cases al <;>
      simp [tzxplay_args, Ne.symm h1, Ne.symm h2, Ne.symm h3, Ne.symm h4]

/-- C6 (witness): a concrete invocation with `--soft` configured. -/
theorem C6_invocation_flags_witness :
    ("--sine" ∈ tzxplay_args "/music/a.tzx" { cfg0 with soft := true }
        ↔ ({ cfg0 with soft := true } : Config).soft = true)
      ∧ (tzxplay_args "/music/a.tzx" { cfg0 with soft := true }).getLast?
        = some "/music/a.tzx" := by
  have h := C6_invocation_flags "/music/a.tzx" { cfg0 with soft := true }
    (by decide) (by decide) (by decide) (by decide)
  exact ⟨h.2.2.1, h.2.2.2.2.2⟩

/-- Is an event a subprocess invocation? -/
def isRunEvent : Event → Bool
  | .run _ _ => true
  | _ => false

/-- C7: a non-zero exit status from the external tool is swallowed:
`play_tzx_file` returns normally for every exit status the oracle
produces, invokes the tool exactly once (no retry), and when the selected
entry dispatches to the invoker the loop body still completes through the
separator and the sleep, so the loop continues. -/
theorem C7_nonzero_exit_swallowed (filename : String) (cfg : Config)
    (exitf : List String → Nat) (catalog : List String) (w : World)
    (hnp : cfg.noplay = false)
    (ht : get_filetype (selectedGame catalog w) = .ok .TZX) :
    (play_tzx_file filename cfg exitf).2 = .ok ()
      ∧ (play_tzx_file filename cfg exitf).1.countP (fun e => isRunEvent e) = 1
      ∧ (loop_iteration catalog cfg w).2 = .ok ()
      ∧ Event.sleep cfg.gap ∈ (loop_iteration catalog cfg w).1 := by
  have hplay : ∀ (f : String) (ex : List String → Nat),
      (play_tzx_file f cfg ex).2 = .ok () := by
    intro f ex
    unfold play_tzx_file subprocess_run_check
    by_cases h : ex (tzxplay_args f cfg) = 0 <;> simp [h]
  refine ⟨hplay filename exitf, ?_, ?_, ?_⟩
  · unfold play_tzx_file subprocess_run_check
    simp [List.countP_cons, isRunEvent]
  · simp [loop_iteration, hnp, ht, hplay]
  · simp [loop_iteration, hnp, ht, hplay]

/-- A concrete oracle whose tool invocations all fail with exit status 2. -/
def wFail : World :=
  { pickCatalog := 0, pickZip := 0, tempdir := "/tmp/t0",
    zipContent := fun _ => .ok [], exitf := fun _ => 2 }

/-- C7 (witness): a failing tool run at a concrete tape image. -/
theorem C7_nonzero_exit_swallowed_witness :
    (play_tzx_file "/music/a.tzx" cfg0 (fun _ => 2)).2 = .ok ()
      ∧ (loop_iteration ["/music/a.tzx"] cfg0 wFail).2 = .ok () := by
  have h := C7_nonzero_exit_swallowed "/music/a.tzx" cfg0 (fun _ => 2)
    ["/music/a.tzx"] wFail rfl rfl
  exact ⟨h.1, h.2.2.1⟩

/-- C3 (counterexample): the glob filter never tests for regular files: a
directory named `games.tzx` is catalogued even though the fixture tree
contains no file at all, so the result set is not exactly the qualifying
files. -/
theorem C3_counterexample :
    get_tzx_from_path "/music" [⟨["games.tzx"], true⟩] "" true
        = ["/music/games.tzx"]
      ∧ (FSEntry.mk ["games.tzx"] true).isDir = true
      ∧ ([⟨["games.tzx"], true⟩] : List FSEntry).filter (fun e => !e.isDir) = [] := by
  refine ⟨?_, rfl, rfl⟩
  decide

/-- C3 (amended): for every root, fixture tree, match substring and
include-archives setting, the scanner returns exactly the entries — regular
files and directories alike, since the glob filter never tests the entry
kind — whose name extension is `.tzx`, or `.zip` when archives are enabled,
and whose lowercased full path contains the lowercased match substring;
every result is the root-joined (absolute) path of its entry; the empty
match substring matches everything. -/
theorem C3_scanner_result_exact (root : String) (fs : List FSEntry)
    (mtch : String) (inc : Bool) :
    (∀ p, p ∈ get_tzx_from_path root fs mtch inc ↔
        ∃ e ∈ fs, p = fullPath root e
          ∧ (pySuffix e.lastComponent = ".tzx"
              ∨ (inc = true ∧ pySuffix e.lastComponent = ".zip"))
          ∧ (pyLower mtch).data <:+: (pyLower (fullPath root e)).data)
      ∧ (∀ p ∈ get_tzx_from_path root fs mtch inc,
          (root ++ "/").data <+: p.data)
      ∧ (∀ p, p ∈ get_tzx_from_path root fs "" inc ↔
          ∃ e ∈ fs, p = fullPath root e
            ∧ (pySuffix e.lastComponent = ".tzx"
                ∨ (inc = true ∧ pySuffix e.lastComponent = ".zip"))) := by
  refine ⟨fun p => mem_get_tzx_iff root fs mtch inc p, ?_, ?_⟩
  · intro p hp
    rcases (mem_get_tzx_iff root fs mtch inc p).mp hp with ⟨e, _, rfl, _, _⟩
    have h1 : fullPath root e = (root ++ "/") ++ String.intercalate "/" e.rel := by
      rw [fullPath, String.append_assoc]
    rw [h1, String.data_append]
    exact List.prefix_append _ _
  · intro p
    rw [mem_get_tzx_iff root fs "" inc p]
    constructor
    · rintro ⟨e, he, rfl, hext, _⟩
      exact ⟨e, he, rfl, hext⟩
    · rintro ⟨e, he, rfl, hext⟩
      exact ⟨e, he, rfl, hext, List.nil_infix⟩

/-- C3 (witness): a concrete tape image below a concrete root is a member
of the scanner's result, through the characterisation. -/
theorem C3_scanner_result_exact_witness :
    "/music/a.tzx" ∈ get_tzx_from_path "/music" [⟨["a.tzx"], false⟩] "" false :=
  ((C3_scanner_result_exact "/music" [⟨["a.tzx"], false⟩] "" false).1
      "/music/a.tzx").mpr
    ⟨⟨["a.tzx"], false⟩, by decide, rfl, Or.inl (by decide), by decide⟩

/-- C4 (counterexample): an existing root that is not a directory passes
the only pre-scan check (`os.path.exists` — nothing tests `isdir`); the
scan then runs against it, finds nothing, and the program fails with the
post-scan not-found error, not with the pre-scan invalid-folder error the
claim requires. -/
theorem C4_counterexample :
    main_scan true false "/music/notes.txt" [⟨["a.tzx"], false⟩] ""
        = .error "No TZX files found in: /music/notes.txt"
      ∧ main_scan true false "/music/notes.txt" [⟨["a.tzx"], false⟩] ""
        ≠ .error "Invalid folder: /music/notes.txt" := by
  refine ⟨rfl, ?_⟩
  intro h
  exact absurd (Except.error.inj h) (by decide)

/-- C4 (amended): the program checks only that the root path exists before
scanning: a non-existent root is a fatal configuration error before any
scan; an existing non-directory root passes the check, scans to an empty
catalog and dies with the not-found error; and whenever the scan succeeds
the catalog handed to the loop is non-empty. -/
theorem C4_startup_checks (ex isDir : Bool) (root : String)
    (fs : List FSEntry) (mtch : String) :
    (ex = false → main_scan ex isDir root fs mtch
        = .error ("Invalid folder: " ++ root))
      ∧ (∀ cat, main_scan ex isDir root fs mtch = .ok cat → cat ≠ [])
      ∧ (ex = true → isDir = false → main_scan ex isDir root fs mtch
          = .error ("No TZX files found in: " ++ root)) := by
  refine ⟨?_, ?_, ?_⟩
  · rintro rfl
    rfl
  · intro cat hcat hnil
    subst hnil
    cases ex with
    | false => simp [main_scan] at hcat
    | true =>
      by_cases h : (get_tzx_from_path root (if isDir then fs else []) mtch true).isEmpty
      · simp [main_scan, h] at hcat
      · simp [main_scan, h] at hcat
        rw [hcat] at h
        simp at h
  · rintro rfl rfl
    rfl

/-- C4 (witness): the non-existent-root branch at concrete inputs. -/
theorem C4_startup_checks_witness :
    main_scan false true "/music" [] "" = .error "Invalid folder: /music" :=
  (C4_startup_checks false true "/music" [] "").1 rfl

/-- C8: with the list flag set, the program prints one line per catalog
entry in catalog order — the entry's path with the folder prefix stripped
behind a single leading dot, which for a root-joined path is exactly
`"./" ++ relative` — runs no subprocess, sleeps never, and returns 0
instead of entering the loop. -/
theorem C8_list_mode (root : String) (rels : List String) (cfg : Config)
    (w : World) (hl : cfg.list = true) :
    main_dispatch cfg root (rels.map (fun r => root ++ "/" ++ r)) w
        = (rels.map (fun r => Event.print ("./" ++ r)), .ok ())
      ∧ (∀ argv code, Event.run argv code
          ∉ (main_dispatch cfg root (rels.map (fun r => root ++ "/" ++ r)) w).1)
      ∧ (∀ s, Event.sleep s
          ∉ (main_dispatch cfg root (rels.map (fun r => root ++ "/" ++ r)) w).1) := by
  have hdot : ∀ r : String, "." ++ ("/" ++ r) = "./" ++ r := by
    intro r
    apply String.ext
    simp [String.data_append]
  have hmain : main_dispatch cfg root (rels.map (fun r => root ++ "/" ++ r)) w
      = (rels.map (fun r => Event.print ("./" ++ r)), .ok ()) := by
    unfold main_dispatch
    rw [if_pos hl]
    refine congrArg (fun l => (l, Except.ok ())) ?_
    rw [List.map_map]
    refine List.map_congr_left ?_
    intro r _
    simp only [Function.comp]
    rw [pyReplaceFirst_strips_front, hdot]
  refine ⟨hmain, ?_, ?_⟩
  · intro argv code h
    rw [hmain] at h
    simp at h
  · intro s h
    rw [hmain] at h
    simp at h

/-- C8 (witness): the list branch at a concrete root and catalog. -/
theorem C8_list_mode_witness :
    main_dispatch { cfg0 with list := true } "/music"
        (["a.tzx"].map (fun r => "/music" ++ "/" ++ r)) w0
      = ([Event.print "./a.tzx"], .ok ()) := by
  have h := (C8_list_mode "/music" ["a.tzx"] { cfg0 with list := true } w0 rfl).1
  simpa using h

/-- C9 (counterexample): `--gap -3` is accepted — `argparse` type `int`
imposes no sign restriction — producing a Configuration whose inter-item
delay is negative, refuting the non-negativity part of the claim. -/
theorem C9_counterexample :
    parse_args ["/music", "--gap", "-3"]
        = .ok { folder := "/music", gap := -3 }
      ∧ ((-3 : Int) < 0) :=
  ⟨rfl, by decide⟩

/-- C9 (amended): the parser rejects a missing positional folder, a `--gap`
with no value, and a non-integer gap value, each with a usage error and
non-zero exit; it accepts every integer-shaped gap value — negative ones
included — and stores it verbatim, so the produced delay is an integer but
not necessarily non-negative. -/
theorem C9_parser_behaviour (v : String) (n : Int) :
    parse_args [] = .error "the following arguments are required: FOLDER"
      ∧ parse_args ["/music", "--gap"]
        = .error "argument --gap: expected one argument"
      ∧ (parsePyInt v = none → parse_args ["/music", "--gap", v]
          = .error ("argument --gap: invalid int value: " ++ v))
      ∧ (parsePyInt v = some n → parse_args ["/music", "--gap", v]
          = .ok { folder := "/music", gap := n }) := by
  have hstep : parse_args ["/music", "--gap", v]
      = match parsePyInt v with
        | some m => .ok { folder := "/music", gap := m }
        | none => .error ("argument --gap: invalid int value: " ++ v) := by
    unfold parse_args
    rw [show parseTokens ["/music", "--gap", v] {}
          = match parsePyInt v with
            | some m => parseTokens [] { folder := some "/music", gap := m }
            | none => .error ("argument --gap: invalid int value: " ++ v)
        from rfl]
    cases parsePyInt v with
    | none => rfl
    | some m => rfl
  refine ⟨rfl, rfl, ?_, ?_⟩
  · intro h
    rw [hstep, h]
  · intro h
    rw [hstep, h]

/-- C9 (witness): a positive gap value accepted at concrete inputs. -/
theorem C9_parser_behaviour_witness :
    parse_args ["/music", "--gap", "7"] = .ok { folder := "/music", gap := 7 } :=
  (C9_parser_behaviour "7" 7).2.2.2 rfl

/-- C10: the scan inside an extracted archive passes `include_zip = False`:
every path it returns comes from an entry whose extension is `.tzx`, so a
zip nested inside a zip is never selected for playback; and an archive
whose entries carry no `.tzx` extension at all is reported as holding no
tape images — diagnostic printed, no subprocess run, temporary directory
still created and removed. -/
theorem C10_nested_archives_excluded (tempdir : String)
    (entries : List FSEntry) (mtch : String) :
    (∀ p ∈ get_tzx_from_path tempdir entries mtch false,
        ∃ e ∈ entries, p = fullPath tempdir e
          ∧ pySuffix e.lastComponent = ".tzx")
      ∧ (∀ (filename : String) (cfg : Config) (pick : Nat)
            (exitf : List String → Nat),
          (∀ e ∈ entries, pySuffix e.lastComponent ≠ ".tzx") →
          play_zip_file filename cfg tempdir (.ok entries) pick exitf
            = ([Event.mkTempDir tempdir,
                Event.print ("No TZX files found in " ++ filename ++ "!"),
                Event.rmTempDir tempdir], .ok ())) := by
  constructor
  · intro p hp
    rcases (mem_get_tzx_iff tempdir entries mtch false p).mp hp with
      ⟨e, he, rfl, hext, _⟩
    rcases hext with h | ⟨h, _⟩
    · exact ⟨e, he, rfl, h⟩
    · cases h
  · intro filename cfg pick exitf hno
    have hempty : get_tzx_from_path tempdir entries cfg.mtch false = [] := by
      by_contra hne
      rcases List.exists_mem_of_ne_nil _ hne with ⟨p, hp⟩
      rcases (mem_get_tzx_iff tempdir entries cfg.mtch false p).mp hp with
        ⟨e, he, _, hext, _⟩
      rcases hext with h | ⟨h, _⟩
      · exact hno e he h
      · cases h
    simp [play_zip_file, hempty]

/-- C10 (witness): an archive holding only a nested archive, at concrete
inputs: diagnostic, no run event, cleanup. -/
theorem C10_nested_archives_excluded_witness :
    play_zip_file "/music/outer.zip" cfg0 "/tmp/t0"
        (.ok [⟨["inner.zip"], false⟩]) 0 (fun _ => 0)
      = ([Event.mkTempDir "/tmp/t0",
          Event.print "No TZX files found in /music/outer.zip!",
          Event.rmTempDir "/tmp/t0"], .ok ()) := by
  have h := (C10_nested_archives_excluded "/tmp/t0" [⟨["inner.zip"], false⟩] "").2
    "/music/outer.zip" cfg0 0 (fun _ => 0) (by decide)
  simpa using h

end ZXJukebox
